import Mathlib

/-!
Verification development for the HECS-CPS-Sim discrete-event simulation kernel.

The definitions below are a shallow embedding of the C++ sources:
* `simulation_events_and_data.h` : `FaultInfo` and its impedance derivation;
* `protection_system.cpp` / `protection_system.h` : overcurrent and distance
  protective components, and the protection engine's fan-out over the registry;
* `ecs_core.h` : the type-tag keyed component registry;
* `cps_coro_lib.h` : `Task`, and the scheduler's event map and step loop;
* `frequency_system.cpp` : the VPP frequency-response controller.

C++ `double` values are modelled as rationals (`ℚ`); machine integers carry no
overflow in the modelled scenarios and are modelled as `ℤ` / `ℕ`.
-/

namespace HECS

/-- Fault data record, from `simulation_events_and_data.h` lines 129-142.
`Entity` is a 64-bit id; ids stay tiny in this program so it is modelled as `ℕ`. -/
structure FaultInfo where
  current_kA : ℚ
  voltage_kV : ℚ
  impedance_Ohm : ℚ
  distance_km : ℚ
  faulty_entity_id : ℕ
deriving DecidableEq

/-- `FaultInfo::calculate_impedance_if_needed` (`simulation_events_and_data.h`
lines 136-141): if the impedance is zero and both voltage and current are
positive, derive it as `(voltage_kV * 1000.0) / (current_kA * 1000.0)`. -/
def FaultInfo.calculate_impedance_if_needed (f : FaultInfo) : FaultInfo :=
  if f.impedance_Ohm = 0 ∧ 0 < f.voltage_kV ∧ 0 < f.current_kA then
    { f with impedance_Ohm := (f.voltage_kV * 1000) / (f.current_kA * 1000) }
  else f

/-- Overcurrent stage component, from `protection_system.h` lines 23-34. -/
structure OverCurrentProtection where
  pickup_current_kA : ℚ
  fixed_delay_ms : ℤ
  stage_name : String
deriving DecidableEq

/-- `OverCurrentProtection::pick_up` (`protection_system.cpp`):
`fault_data.current_kA >= pickup_current_kA_`. -/
def OverCurrentProtection.pick_up (p : OverCurrentProtection) (fault_data : FaultInfo)
    (_self_entity_id : ℕ) : Bool :=
  p.pickup_current_kA ≤ fault_data.current_kA

/-- `OverCurrentProtection::trip_delay_ms`: the fixed stage delay. -/
def OverCurrentProtection.trip_delay_ms (p : OverCurrentProtection) (_fault_data : FaultInfo) : ℤ :=
  p.fixed_delay_ms

/-- Distance protection component with three zone reaches and delays, from
`protection_system.h` lines 36-46 (`z_set_` and `t_ms_` vectors of length 3). -/
structure DistanceProtection where
  z1 : ℚ
  z2 : ℚ
  z3 : ℚ
  t1 : ℤ
  t2 : ℤ
  t3 : ℤ
deriving DecidableEq

/-- `DistanceProtection::pick_up` (`protection_system.cpp` lines 34-40):
a fault on a different, nonzero entity picks up only within the backup zone
`z3`; otherwise any of the three zones picks up. -/
def DistanceProtection.pick_up (d : DistanceProtection) (fault_data : FaultInfo)
    (self_entity_id : ℕ) : Bool :=
  if fault_data.faulty_entity_id ≠ self_entity_id ∧ fault_data.faulty_entity_id ≠ 0 then
    fault_data.impedance_Ohm ≤ d.z3
  else
    fault_data.impedance_Ohm ≤ d.z1 ∨ fault_data.impedance_Ohm ≤ d.z2 ∨
      fault_data.impedance_Ohm ≤ d.z3

/-- `DistanceProtection::trip_delay_ms` (`protection_system.cpp` lines 41-50):
delay of the smallest zone containing the impedance, else the 99999 sentinel. -/
def DistanceProtection.trip_delay_ms (d : DistanceProtection) (fault_data : FaultInfo) : ℤ :=
  if fault_data.impedance_Ohm ≤ d.z1 then d.t1
  else if fault_data.impedance_Ohm ≤ d.z2 then d.t2
  else if fault_data.impedance_Ohm ≤ d.z3 then d.t3
  else 99999

/-- The concrete protective component kinds stored in the registry
(`ProtectiveComp` subclasses in `protection_system.h`). -/
inductive ProtComp where
  | oc : OverCurrentProtection → ProtComp
  | dist : DistanceProtection → ProtComp
deriving DecidableEq

/-- Virtual dispatch of `ProtectiveComp::pick_up`. -/
def ProtComp.pick_up : ProtComp → FaultInfo → ℕ → Bool
  | .oc p, f, e => p.pick_up f e
  | .dist d, f, e => d.pick_up f e

/-- Virtual dispatch of `ProtectiveComp::trip_delay_ms`. -/
def ProtComp.trip_delay_ms : ProtComp → FaultInfo → ℤ
  | .oc p, f => p.trip_delay_ms f
  | .dist d, f => d.trip_delay_ms f

/-- The `typeid(...).hash_code()` keys that ever appear in this program:
`Registry::emplace<Comp>` and `Registry::for_each<Comp>` in `ecs_core.h` key the
component store by the `typeid` of the template argument `Comp`, so the abstract
base class `ProtectiveComp` has its own key, distinct from both concrete keys. -/
inductive TypeTag where
  | overCurrentProtectionTag
  | distanceProtectionTag
  | protectiveCompTag
deriving DecidableEq

/-- The tag under which `Registry::emplace<Comp>` files a component: the typeid
of its concrete class. -/
def ProtComp.typeTag : ProtComp → TypeTag
  | .oc _ => .overCurrentProtectionTag
  | .dist _ => .distanceProtectionTag

/-- One entry of `Registry::components_` (`ecs_core.h` line 61): a component
stored under a type tag for an entity. -/
structure RegEntry where
  tag : TypeTag
  entity : ℕ
  comp : ProtComp
deriving DecidableEq

/-- The protective-component content of a `Registry`. -/
abbrev Registry := List RegEntry

/-- `Registry::emplace<Comp>(e, args...)` (`ecs_core.h` lines 22-30): stores the
new component under `typeid(Comp).hash_code()`, i.e. under its concrete tag. -/
def Registry.emplace (r : Registry) (e : ℕ) (c : ProtComp) : Registry :=
  r ++ [⟨c.typeTag, e, c⟩]

/-- `Registry::for_each<Comp>(fn)` (`ecs_core.h` lines 47-57): visits exactly the
entries filed under `typeid(Comp).hash_code()` — the tag asked for. -/
def Registry.for_each (r : Registry) (tag : TypeTag) : List (ProtComp × ℕ) :=
  r.filterMap (fun en => if en.tag = tag then some (en.comp, en.entity) else none)

/-- Body of `ProtectionSystem::run` for one received fault
(`protection_system.cpp` lines 70-89): derive missing impedance, then iterate
`for_each<ProtectiveComp>` and, for each component that picks up, spawn a trip
sub-task; the result lists the `(protected entity, trip delay)` pairs of the
spawned sub-tasks, in iteration order. -/
def protectionFanOut (r : Registry) (info : FaultInfo) : List (ℕ × ℤ) :=
  let fault_data := info.calculate_impedance_if_needed
  (r.for_each .protectiveCompTag).filterMap (fun pe =>
    if pe.1.pick_up fault_data pe.2 then some (pe.2, pe.1.trip_delay_ms fault_data) else none)

/-- The protection entities and components created in `main` (main.cpp lines
276-280): line 1 gets `OverCurrentProtection(5.0, 200, "OC-L1P-Fast")` and
`DistanceProtection(5.0, 0, 15.0, 300, 25.0, 700)`; transformer 2 gets
`OverCurrentProtection(2.5, 300, "OC-T1P-Main")`. -/
def mainRegistry : Registry :=
  Registry.emplace
    (Registry.emplace
      (Registry.emplace [] 1 (.oc ⟨5, 200, "OC-L1P-Fast"⟩))
      1 (.dist ⟨5, 15, 25, 0, 300, 700⟩))
    2 (.oc ⟨(5 : ℚ)/2, 300, "OC-T1P-Main"⟩)

/-- Fault #1 injected by `faultInjectorTask_prot` (`protection_system.cpp` lines
108-118): 15 kA, 220 kV, 10 km, impedance `(220/15)*0.8` Ω, on entity 1. -/
def fault1 : FaultInfo :=
  { current_kA := 15, voltage_kV := 220, impedance_Ohm := (220/15) * (8/10)
    distance_km := 10, faulty_entity_id := 1 }

/-- C1: the claim says the run loop queries every protective component stored in
the registry and spawns a trip sub-task for each that picks up.  The code does
not: `Registry::emplace` files components under their concrete `typeid`
(`OverCurrentProtection`, `DistanceProtection`), while `ProtectionSystem::run`
iterates `for_each<ProtectiveComp>`, the abstract base class tag, under which
nothing is ever stored.  For the registry built by `main` and the first injected
fault, the fan-out is empty — no component is queried and no trip sub-task is
spawned — even though the line's overcurrent stage does pick that fault up. -/
theorem C1_for_each_visits_no_protective_component :
    protectionFanOut mainRegistry fault1 = [] ∧
    mainRegistry.for_each .protectiveCompTag = [] ∧
    OverCurrentProtection.pick_up ⟨5, 200, "OC-L1P-Fast"⟩ fault1 1 = true := by
  refine ⟨rfl, rfl, ?_⟩
  simp [OverCurrentProtection.pick_up, fault1]
  norm_num

/-- C5: for a distance protection with ordered zones `z1 ≤ z2 ≤ z3`, a fault on
a different nonzero entity picks up exactly when its impedance is within the
backup zone `z3`; a fault on the protected entity (or with id 0) picks up
exactly when it is within some zone; and the trip delay is `t1` in zone 1, `t2`
in zone 2 beyond zone 1, `t3` in zone 3 beyond zone 2, else the 99999 sentinel. -/
theorem C5_distance_protection_pickup_and_delay (d : DistanceProtection) (f : FaultInfo)
    (self : ℕ) (h12 : d.z1 ≤ d.z2) (h23 : d.z2 ≤ d.z3) :
    ((f.faulty_entity_id ≠ self ∧ f.faulty_entity_id ≠ 0) →
      (d.pick_up f self = true ↔ f.impedance_Ohm ≤ d.z3)) ∧
    (¬(f.faulty_entity_id ≠ self ∧ f.faulty_entity_id ≠ 0) →
      (d.pick_up f self = true ↔
        (f.impedance_Ohm ≤ d.z1 ∨ f.impedance_Ohm ≤ d.z2 ∨ f.impedance_Ohm ≤ d.z3))) ∧
    (f.impedance_Ohm ≤ d.z1 → d.trip_delay_ms f = d.t1) ∧
    (¬f.impedance_Ohm ≤ d.z1 → f.impedance_Ohm ≤ d.z2 → d.trip_delay_ms f = d.t2) ∧
    (¬f.impedance_Ohm ≤ d.z2 → f.impedance_Ohm ≤ d.z3 → d.trip_delay_ms f = d.t3) ∧
    (¬f.impedance_Ohm ≤ d.z3 → d.trip_delay_ms f = 99999) := by
  refine ⟨?_, ?_, ?_, ?_, ?_, ?_⟩
  · intro h
    simp [DistanceProtection.pick_up, h]
  · intro h
    simp only [DistanceProtection.pick_up, if_neg h]
    simp
  · intro h1
    simp [DistanceProtection.trip_delay_ms, h1]
  · intro h1 h2
    simp [DistanceProtection.trip_delay_ms, h1, h2]
  · intro h2 h3
    have h1 : ¬f.impedance_Ohm ≤ d.z1 := fun h => h2 (le_trans h h12)
    simp [DistanceProtection.trip_delay_ms, h1, h2, h3]
  · intro h3
    have h2 : ¬f.impedance_Ohm ≤ d.z2 := fun h => h3 (le_trans h h23)
    have h1 : ¬f.impedance_Ohm ≤ d.z1 := fun h => h2 (le_trans h h12)
    simp [DistanceProtection.trip_delay_ms, h1, h2, h3]

/-- C5 witness: the line's distance protection `(5,0)(15,300)(25,700)` on a
backup fault of 20 Ω on another entity: picks up and trips after 700 ms. -/
theorem C5_distance_protection_pickup_and_delay_witness :
    DistanceProtection.pick_up ⟨5, 15, 25, 0, 300, 700⟩
      ⟨1, 220, 20, 0, 2⟩ 1 = true ∧
    DistanceProtection.trip_delay_ms ⟨5, 15, 25, 0, 300, 700⟩ ⟨1, 220, 20, 0, 2⟩ = 700 := by
  have h := C5_distance_protection_pickup_and_delay ⟨5, 15, 25, 0, 300, 700⟩
    ⟨1, 220, 20, 0, 2⟩ 1 (by norm_num) (by norm_num)
  refine ⟨(h.1 (by simp)).2 (by norm_num), h.2.2.2.2.1 (by norm_num) (by norm_num)⟩

/-- C6: `calculate_impedance_if_needed` sets the impedance to
`voltage_kV / current_kA` exactly when the stored impedance is zero and both
voltage and current are positive, and returns the record unchanged otherwise;
in particular a fault with zero current is returned unchanged, so its zero
impedance stays zero. -/
theorem C6_impedance_derivation (f : FaultInfo) :
    f.calculate_impedance_if_needed =
      (if f.impedance_Ohm = 0 ∧ 0 < f.voltage_kV ∧ 0 < f.current_kA then
        { f with impedance_Ohm := f.voltage_kV / f.current_kA }
      else f) ∧
    (f.current_kA = 0 → f.calculate_impedance_if_needed = f) := by
  constructor
  · unfold FaultInfo.calculate_impedance_if_needed
    split
    · rw [mul_div_mul_right _ _ (by norm_num : (1000 : ℚ) ≠ 0)]
    · rfl
  · intro hc
    unfold FaultInfo.calculate_impedance_if_needed
    rw [if_neg]
    rintro ⟨-, -, hpos⟩
    exact absurd (hc ▸ hpos) (lt_irrefl 0)

/-- C6 witness: fault #2's precursor shape — zero current, positive voltage,
zero impedance — is left untouched, so the impedance stays 0. -/
theorem C6_impedance_derivation_witness :
    FaultInfo.current_kA ⟨0, 220, 0, 0, 5⟩ = 0 ∧
    FaultInfo.calculate_impedance_if_needed ⟨0, 220, 0, 0, 5⟩ = ⟨0, 220, 0, 0, 5⟩ := by
  exact ⟨rfl, (C6_impedance_derivation ⟨0, 220, 0, 0, 5⟩).2 rfl⟩

/-- A coroutine frame handle as observed by `Task` (`cps_coro_lib.h`): the only
property the `Task` methods inspect is `handle_.done()`. -/
structure CoroHandle where
  done : Bool
deriving DecidableEq

/-- `cps_coro::Task` (`cps_coro_lib.h` lines 59-144): owns an optional coroutine
handle; a null handle is `none`. -/
structure Task where
  handle : Option CoroHandle
deriving DecidableEq

/-- `Task::detach` (`cps_coro_lib.h` lines 122-125): the body is exactly
`handle_ = nullptr;` — it nulls the owning handle and does nothing else. -/
def Task.detach (_t : Task) : Task :=
  { handle := none }

/-- `Task::is_done` (`cps_coro_lib.h` lines 128-131):
`!handle_ || handle_.done()`. -/
def Task.is_done (t : Task) : Bool :=
  match t.handle with
  | none => true
  | some h => h.done

/-- Whether `Task::~Task` (`cps_coro_lib.h` lines 87-92) destroys the coroutine
frame: it does iff the handle is non-null and the coroutine is not done. -/
def Task.dtorDestroysFrame (t : Task) : Bool :=
  match t.handle with
  | none => false
  | some h => !h.done

/-- Whether `Task::resume` (`cps_coro_lib.h` lines 134-139) resumes the
coroutine frame: it does iff the handle is non-null and the coroutine is not
done. -/
def Task.resumeResumesFrame (t : Task) : Bool :=
  match t.handle with
  | none => false
  | some h => !h.done

/-- C10: after `detach()`, `is_done()` returns true regardless of whether the
coroutine ran to completion; detach only nulls the owning handle, so the
detached task's destructor never destroys the coroutine frame, and `resume` on
it never resumes the frame. -/
theorem C10_detach_is_done_and_never_destroys (t : Task) :
    (t.detach).is_done = true ∧
    (t.detach).handle = none ∧
    (t.detach).dtorDestroysFrame = false ∧
    (t.detach).resumeResumesFrame = false :=
  ⟨rfl, rfl, rfl, rfl⟩

/-- One entry of `Scheduler::event_handlers_` (`cps_coro_lib.h` line 323): an
event id, a unique identity for this subscription record (the multimap node),
and the handler's observable effect on the subscription map when invoked — the
list of event ids it subscribes to in turn.  (In the source, handlers resume
suspended coroutines, whose only mutations of `event_handlers_` are
re-registrations via `EventAwaiter::await_suspend`.) -/
structure Subscription where
  eventId : ℕ
  token : ℕ
  prog : List ℕ
deriving DecidableEq

/-- The `event_handlers_` multimap together with a fresh-token counter that
gives each inserted subscription record its identity. -/
structure EventMap where
  subs : List Subscription
  next : ℕ
deriving DecidableEq

/-- `Scheduler::register_event_handler` (`cps_coro_lib.h` lines 196-199):
appends a new subscription for `event_id` (multimap `emplace`). -/
def EventMap.register (m : EventMap) (e : ℕ) (prog : List ℕ) : EventMap :=
  { subs := m.subs ++ [⟨e, m.next, prog⟩], next := m.next + 1 }

/-- Invoking one snapshotted sink: it performs its registrations in order. -/
def EventMap.runSink (m : EventMap) (s : Subscription) : EventMap :=
  s.prog.foldl (fun a e => a.register e []) m

/-- The handlers matching `event_id` at trigger time
(`equal_range` in `cps_coro_lib.h` line 208), in subscription order. -/
def EventMap.snapshotFor (m : EventMap) (e : ℕ) : List Subscription :=
  m.subs.filter (fun s => decide (s.eventId = e))

/-- The erasure of all handlers for `event_id`
(`event_handlers_.erase(range.first, range.second)`, line 217). -/
def EventMap.eraseEvent (m : EventMap) (e : ℕ) : EventMap :=
  { subs := m.subs.filter (fun s => decide (¬s.eventId = e)), next := m.next }

/-- `Scheduler::trigger_event` (`cps_coro_lib.h` lines 205-223): snapshot the
handlers for `event_id`, erase them from the map, then invoke each snapshotted
handler in order.  Returns the final map and the list of invoked handlers. -/
def EventMap.trigger_event (m : EventMap) (e : ℕ) : EventMap × List Subscription :=
  ((m.snapshotFor e).foldl EventMap.runSink (m.eraseEvent e), m.snapshotFor e)

theorem EventMap.register_mem {m : EventMap} {e : ℕ} {prog : List ℕ} {s : Subscription}
    (h : s ∈ (m.register e prog).subs) : s ∈ m.subs ∨ m.next ≤ s.token := by
  rcases List.mem_append.1 h with h1 | h1
  · exact Or.inl h1
  · right
    rcases List.mem_singleton.1 h1 with rfl
    exact le_refl _

theorem EventMap.runSink_mem {s : Subscription} (sub : Subscription) :
    ∀ m : EventMap, s ∈ (m.runSink sub).subs → s ∈ m.subs ∨ m.next ≤ s.token := by
  show ∀ m : EventMap, s ∈ (sub.prog.foldl (fun a e => a.register e []) m).subs →
    s ∈ m.subs ∨ m.next ≤ s.token
  induction sub.prog with
  | nil => exact fun m h => Or.inl h
  | cons e rest ih =>
    intro m h
    rcases ih (m.register e []) h with h1 | h1
    · rcases EventMap.register_mem h1 with h2 | h2
      · exact Or.inl h2
      · exact Or.inr h2
    · exact Or.inr (le_trans (Nat.le_succ _) h1)

theorem EventMap.runSink_next (sub : Subscription) :
    ∀ m : EventMap, m.next ≤ (m.runSink sub).next := by
  show ∀ m : EventMap, m.next ≤ (sub.prog.foldl (fun a e => a.register e []) m).next
  induction sub.prog with
  | nil => exact fun m => le_refl _
  | cons e rest ih =>
    exact fun m => le_trans (Nat.le_succ _) (ih (m.register e []))

theorem EventMap.runSinks_mem {s : Subscription} (l : List Subscription) :
    ∀ m : EventMap, s ∈ (l.foldl EventMap.runSink m).subs → s ∈ m.subs ∨ m.next ≤ s.token := by
  induction l with
  | nil => exact fun m h => Or.inl h
  | cons sub rest ih =>
    intro m h
    rcases ih (m.runSink sub) h with h1 | h1
    · exact EventMap.runSink_mem sub m h1
    · exact Or.inr (le_trans (EventMap.runSink_next sub m) h1)

/-- C2: `trigger_event` invokes exactly the handlers subscribed for the event id
at the moment of the call (in subscription order), the map handed to the first
sink already contains no handler for the event id, and — since handlers can
only add fresh subscriptions — no subscription present at trigger time for that
event id survives in the map when `trigger_event` returns. -/
theorem C2_trigger_event_one_shot (m : EventMap) (e : ℕ)
    (hwf : ∀ s ∈ m.subs, s.token < m.next) :
    (m.trigger_event e).2 = m.subs.filter (fun s => decide (s.eventId = e)) ∧
    (m.eraseEvent e).snapshotFor e = [] ∧
    ∀ s ∈ m.subs, s.eventId = e → s ∉ (m.trigger_event e).1.subs := by
  refine ⟨rfl, ?_, ?_⟩
  · rw [EventMap.eraseEvent, EventMap.snapshotFor]
    simp [List.filter_filter]
  · intro s hs he hmem
    rcases EventMap.runSinks_mem _ _ hmem with h1 | h1
    · rcases List.mem_filter.1 h1 with ⟨-, hp⟩
      exact (of_decide_eq_true hp) he
    · exact absurd h1 (not_le.2 (hwf s hs))

/-- C2 witness: a map holding a subscription for event 5 (which re-subscribes
to event 5 when fired) and one for event 7; triggering event 5 removes the
original event-5 subscription from the map. -/
theorem C2_trigger_event_one_shot_witness :
    (∀ s ∈ (EventMap.mk [⟨5, 0, [5]⟩, ⟨7, 1, []⟩] 2).subs, s.token < 2) ∧
    (⟨5, 0, [5]⟩ : Subscription) ∉
      ((EventMap.mk [⟨5, 0, [5]⟩, ⟨7, 1, []⟩] 2).trigger_event 5).1.subs :=
  ⟨by decide,
    (C2_trigger_event_one_shot (EventMap.mk [⟨5, 0, [5]⟩, ⟨7, 1, []⟩] 2) 5 (by decide)).2.2
      ⟨5, 0, [5]⟩ (by decide) rfl⟩

/-- The scheduler state observed by `run_one_step` (`cps_coro_lib.h` lines
319-323): the current virtual time in ms (`ℤ`, as a `steady_clock` time point),
the FIFO ready queue of continuations (identified by `ℕ` handles), and the
timer multimap as a key-sorted list of `(deadline, continuation)` pairs with
insertion order preserved among equal keys. -/
structure SchedState where
  now : ℤ
  ready : List ℕ
  timers : List (ℤ × ℕ)
deriving DecidableEq

/-- Insertion into the `timed_tasks_` multimap: a new entry goes after all
entries with key ≤ its own and before the first strictly larger key. -/
def insertTimer (t : ℤ) (h : ℕ) : List (ℤ × ℕ) → List (ℤ × ℕ)
  | [] => [(t, h)]
  | p :: rest => if p.1 ≤ t then p :: insertTimer t h rest else (t, h) :: p :: rest

/-- `Scheduler::schedule` (`cps_coro_lib.h` lines 181-184): push onto the ready
queue. -/
def SchedState.schedule (s : SchedState) (h : ℕ) : SchedState :=
  { s with ready := s.ready ++ [h] }

/-- `Scheduler::schedule_after` (`cps_coro_lib.h` lines 187-191): insert the
continuation into the timer multimap at key `now + delay`. -/
def SchedState.schedule_after (s : SchedState) (d : ℤ) (h : ℕ) : SchedState :=
  { s with timers := insertTimer (s.now + d) h s.timers }

/-- The scheduler mutations a resumed continuation can perform on the ready and
timer queues (the claims assume no direct `set_time`/`advance_time` call). -/
inductive SchedCmd where
  | schedule : ℕ → SchedCmd
  | scheduleAfter : ℤ → ℕ → SchedCmd
deriving DecidableEq

/-- Apply one mutation issued by a running continuation. -/
def SchedState.applyCmd (s : SchedState) : SchedCmd → SchedState
  | .schedule h => s.schedule h
  | .scheduleAfter d h => s.schedule_after d h

/-- Apply the mutations of one resumption, in order. -/
def SchedState.applyCmds (s : SchedState) (cmds : List SchedCmd) : SchedState :=
  cmds.foldl SchedState.applyCmd s

/-- `Scheduler::run_one_step` (`cps_coro_lib.h` lines 247-272).  If the ready
queue is non-empty, pop its front continuation and resume it (its effects are
given by `eff`); otherwise, if timers are pending, set `now` to the earliest
deadline and migrate every entry with key ≤ `now` into the ready queue;
otherwise do nothing.  Returns the new state and whether any work was done. -/
def runOneStep (eff : ℕ → List SchedCmd) (s : SchedState) : SchedState × Bool :=
  match s.ready with
  | h :: rest => (SchedState.applyCmds { s with ready := rest } (eff h), true)
  | [] =>
    match s.timers with
    | [] => (s, false)
    | (t, _) :: _ =>
      let due := s.timers.takeWhile (fun p => decide (p.1 ≤ t))
      let remaining := s.timers.dropWhile (fun p => decide (p.1 ≤ t))
      ({ now := t, ready := due.map Prod.snd, timers := remaining }, true)

/-- A sequence of `run_one_step` calls. -/
def runSteps (eff : ℕ → List SchedCmd) : ℕ → SchedState → SchedState
  | 0, s => s
  | n + 1, s => runSteps eff n (runOneStep eff s).1

/-- The timer list is sorted by deadline (the `std::multimap` key order). -/
def timersSorted (l : List (ℤ × ℕ)) : Prop :=
  l.Pairwise (fun a b => a.1 ≤ b.1)

/-- Scheduler well-formedness: timers sorted and no timer deadline in the past.
This holds initially (no timers) and is preserved by every operation. -/
def SchedState.Inv (s : SchedState) : Prop :=
  timersSorted s.timers ∧ ∀ p ∈ s.timers, s.now ≤ p.1

/-- A mutation schedules only non-negative delays. -/
def SchedCmd.delayNonNeg : SchedCmd → Prop
  | .schedule _ => True
  | .scheduleAfter d _ => 0 ≤ d

/-- Every continuation's effects use only non-negative delays. -/
def NonNegEff (eff : ℕ → List SchedCmd) : Prop :=
  ∀ h, ∀ c ∈ eff h, c.delayNonNeg

theorem insertTimer_mem {t : ℤ} {h : ℕ} {x : ℤ × ℕ} :
    ∀ {l : List (ℤ × ℕ)}, x ∈ insertTimer t h l → x = (t, h) ∨ x ∈ l := by
  intro l
  induction l with
  | nil =>
    intro hx
    exact Or.inl (List.mem_singleton.1 hx)
  | cons p rest ih =>
    intro hx
    rw [insertTimer] at hx
    split at hx
    · rcases List.mem_cons.1 hx with rfl | hx1
      · exact Or.inr (List.mem_cons_self _ _)
      · rcases ih hx1 with h1 | h1
        · exact Or.inl h1
        · exact Or.inr (List.mem_cons_of_mem _ h1)
    · rcases List.mem_cons.1 hx with rfl | hx1
      · exact Or.inl rfl
      · exact Or.inr hx1

theorem insertTimer_sorted {t : ℤ} {h : ℕ} :
    ∀ {l : List (ℤ × ℕ)}, timersSorted l → timersSorted (insertTimer t h l) := by
  intro l
  induction l with
  | nil =>
    intro _
    exact List.pairwise_singleton _ _
  | cons p rest ih =>
    intro hs
    rcases List.pairwise_cons.1 hs with ⟨hhead, htail⟩
    rw [insertTimer]
    split
    · refine List.pairwise_cons.2 ⟨?_, ih htail⟩
      intro b hb
      rcases insertTimer_mem hb with rfl | hb1
      · assumption
      · exact hhead b hb1
    · rename_i hlt
      refine List.pairwise_cons.2 ⟨?_, hs⟩
      intro b hb
      rcases List.mem_cons.1 hb with rfl | hb1
      · exact le_of_lt (lt_of_not_le hlt)
      · exact le_trans (le_of_lt (lt_of_not_le hlt)) (hhead b hb1)

theorem applyCmd_now (s : SchedState) (c : SchedCmd) : (s.applyCmd c).now = s.now := by
  cases c <;> rfl

theorem applyCmd_inv {s : SchedState} {c : SchedCmd} (hc : c.delayNonNeg) (hs : s.Inv) :
    (s.applyCmd c).Inv := by
  cases c with
  | schedule h => exact hs
  | scheduleAfter d h =>
    refine ⟨insertTimer_sorted hs.1, ?_⟩
    intro p hp
    rcases insertTimer_mem hp with rfl | hp1
    · exact le_add_of_nonneg_right hc
    · exact hs.2 p hp1

theorem applyCmds_now (cmds : List SchedCmd) :
    ∀ s : SchedState, (s.applyCmds cmds).now = s.now := by
  induction cmds with
  | nil => exact fun _ => rfl
  | cons c rest ih =>
    intro s
    show ((s.applyCmd c).applyCmds rest).now = s.now
    rw [ih (s.applyCmd c), applyCmd_now]

theorem applyCmds_inv {cmds : List SchedCmd} (hc : ∀ c ∈ cmds, c.delayNonNeg) :
    ∀ {s : SchedState}, s.Inv → (s.applyCmds cmds).Inv := by
  induction cmds with
  | nil => exact fun hs => hs
  | cons c rest ih =>
    intro s hs
    exact ih (fun x hx => hc x (List.mem_cons_of_mem _ hx))
      (applyCmd_inv (hc c (List.mem_cons_self _ _)) hs)

theorem dropWhile_sorted_bound {t : ℤ} :
    ∀ {l : List (ℤ × ℕ)}, timersSorted l →
      ∀ x ∈ l.dropWhile (fun p => decide (p.1 ≤ t)), t < x.1 := by
  intro l
  induction l with
  | nil =>
    intro _ x hx
    simp [List.dropWhile] at hx
  | cons p rest ih =>
    intro hs x hx
    rcases List.pairwise_cons.1 hs with ⟨hhead, htail⟩
    rw [List.dropWhile_cons] at hx
    split at hx
    · exact ih htail x hx
    · rename_i hnle
      have hpt : t < p.1 := lt_of_not_le (by simpa using hnle)
      rcases List.mem_cons.1 hx with rfl | hx1
      · exact hpt
      · exact lt_of_lt_of_le hpt (hhead x hx1)

theorem dropWhile_sorted {t : ℤ} :
    ∀ {l : List (ℤ × ℕ)}, timersSorted l →
      timersSorted (l.dropWhile (fun p => decide (p.1 ≤ t))) := by
  intro l
  induction l with
  | nil => exact fun _ => List.Pairwise.nil
  | cons p rest ih =>
    intro hs
    rcases List.pairwise_cons.1 hs with ⟨_, htail⟩
    rw [List.dropWhile_cons]
    split
    · exact ih htail
    · exact hs

theorem runOneStep_inv_mono {eff : ℕ → List SchedCmd} (heff : NonNegEff eff)
    {s : SchedState} (hs : s.Inv) :
    (runOneStep eff s).1.Inv ∧ s.now ≤ (runOneStep eff s).1.now := by
  rcases s with ⟨now, ready, timers⟩
  cases ready with
  | cons h rest =>
    constructor
    · exact applyCmds_inv (heff h) ⟨hs.1, hs.2⟩
    · show now ≤ (SchedState.applyCmds ⟨now, rest, timers⟩ (eff h)).now
      rw [applyCmds_now]
  | nil =>
    cases timers with
    | nil => exact ⟨hs, le_refl _⟩
    | cons p rest =>
      rcases p with ⟨t, c⟩
      have hsorted : timersSorted ((t, c) :: rest) := hs.1
      refine ⟨⟨?_, ?_⟩, ?_⟩
      · exact dropWhile_sorted hsorted
      · intro q hq
        exact le_of_lt (dropWhile_sorted_bound hsorted q hq)
      · exact hs.2 (t, c) (List.mem_cons_self _ _)

/-- C3: provided resumed continuations perform no direct `set_time` or
`advance_time` and schedule timers only with non-negative delays, and the timer
queue is well formed (sorted, no deadline in the past — true initially and
preserved by every step), `now()` is monotonically non-decreasing across any
sequence of `run_one_step()` calls, including the steps that jump `now` to the
earliest timer deadline; the well-formedness is itself preserved. -/
theorem C3_now_nondecreasing_across_steps (eff : ℕ → List SchedCmd) (heff : NonNegEff eff)
    (s : SchedState) (hs : s.Inv) (n : ℕ) :
    (runSteps eff n s).Inv ∧ s.now ≤ (runSteps eff n s).now := by
  induction n generalizing s with
  | zero => exact ⟨hs, le_refl _⟩
  | succ k ih =>
    rcases runOneStep_inv_mono heff hs with ⟨hinv1, hmono1⟩
    rcases ih (runOneStep eff s).1 hinv1 with ⟨hinv2, hmono2⟩
    exact ⟨hinv2, le_trans hmono1 hmono2⟩

/-- C3 witness: from time 0 with one timer at 5 ms and inert continuations, two
scheduler steps preserve well-formedness and do not decrease `now`. -/
theorem C3_now_nondecreasing_across_steps_witness :
    NonNegEff (fun _ => []) ∧ (SchedState.mk 0 [] [(5, 3)]).Inv ∧
    (0 : ℤ) ≤ (runSteps (fun _ => []) 2 (SchedState.mk 0 [] [(5, 3)])).now :=
  ⟨fun _ c hc => absurd hc (List.not_mem_nil c),
    ⟨List.pairwise_singleton _ _, by intro p hp; rcases List.mem_singleton.1 hp with rfl; norm_num⟩,
    (C3_now_nondecreasing_across_steps (fun _ => []) (fun _ c hc => absurd hc (List.not_mem_nil c))
      (SchedState.mk 0 [] [(5, 3)])
      ⟨List.pairwise_singleton _ _, by intro p hp; rcases List.mem_singleton.1 hp with rfl; norm_num⟩
      2).2⟩

/-- C8: with an empty ready queue and exactly one pending timer at deadline
`d` strictly after `now`, one `run_one_step()` call sets `now` to exactly `d`,
moves that single continuation into the ready queue, leaves the timer queue
empty, and reports that work was done. -/
theorem C8_single_timer_jump (eff : ℕ → List SchedCmd) (s : SchedState) (d : ℤ) (h : ℕ)
    (hready : s.ready = []) (htimers : s.timers = [(d, h)]) (_hd : s.now < d) :
    runOneStep eff s = (SchedState.mk d [h] [], true) := by
  rcases s with ⟨now, ready, timers⟩
  simp only at hready htimers
  subst hready htimers
  rw [runOneStep]
  simp [List.takeWhile, List.dropWhile]

/-- C8 witness: from time 0 with the single timer `(5, continuation 3)`, one
step yields time 5, ready queue `[3]`, no timers, and returns true. -/
theorem C8_single_timer_jump_witness :
    runOneStep (fun _ => []) (SchedState.mk 0 [] [(5, 3)]) = (SchedState.mk 5 [3] [], true) :=
  C8_single_timer_jump (fun _ => []) (SchedState.mk 0 [] [(5, 3)]) 5 3 rfl rfl (by norm_num)

/-- Device kinds managed by the VPP (`frequency_system.h` lines 20-21). -/
inductive DeviceType where
  | EV_PILE
  | ESS_UNIT
deriving DecidableEq

/-- `FrequencyControlConfigComponent` (`frequency_system.h` lines 19-34). -/
structure FrequencyControlConfigComponent where
  type : DeviceType
  base_power_kW : ℚ
  gain_kW_per_Hz : ℚ
  deadband_Hz : ℚ
  max_output_kW : ℚ
  min_output_kW : ℚ
  soc_min_threshold : ℚ
  soc_max_threshold : ℚ
deriving DecidableEq

/-- `PhysicalStateComponent` (`frequency_system.h` lines 13-17). -/
structure PhysicalStateComponent where
  current_power_kW : ℚ
  soc : ℚ
deriving DecidableEq

/-- `FrequencyInfo` (`simulation_events_and_data.h` lines 144-147). -/
structure FrequencyInfo where
  current_sim_time_seconds : ℚ
  freq_deviation_hz : ℚ
deriving DecidableEq

/-- The device-kind default battery capacities hard-coded in
`vppFrequencyResponseTask` (`frequency_system.cpp` lines 166, 170): 50 kWh for
an EV pile, 2000 kWh for an ESS unit; both positive, so the `> 0` guards in the
source always hold. -/
def capacityFor : DeviceType → ℚ
  | .EV_PILE => 50
  | .ESS_UNIT => 2000

/-- SOC integration of one device during a full update (`frequency_system.cpp`
lines 161-175): skipped on the very first update (`last_full_update_time_s < 0`)
and for `dt ≤ 1e-6`; otherwise integrate the prior power over `dt` hours against
the device-kind capacity and clamp to `[0, 1]`. -/
def socIntegrated (config : FrequencyControlConfigComponent) (st : PhysicalStateComponent)
    (lastFullTime dt : ℚ) : ℚ :=
  if 0 ≤ lastFullTime ∧ 1 / 1000000 < dt then
    max 0 (min 1 (st.soc - st.current_power_kW * (dt / 3600) / capacityFor config.type))
  else st.soc

/-- Power recomputation before the limit clamp (`frequency_system.cpp` lines
177-198): base power inside the deadband; droop response with the deadband
subtracted out otherwise, with the EV-pile SOC-floor special case on frequency
drops. -/
def newPowerPreClamp (config : FrequencyControlConfigComponent) (soc fd : ℚ) : ℚ :=
  if config.deadband_Hz < |fd| then
    if fd < 0 then
      let effective_df_drop := fd + config.deadband_Hz
      match config.type with
      | .EV_PILE =>
        if config.soc_min_threshold ≤ soc then -config.gain_kW_per_Hz * effective_df_drop
        else if config.base_power_kW < 0 then 0
        else config.base_power_kW
      | .ESS_UNIT => -config.gain_kW_per_Hz * effective_df_drop
    else
      let effective_df_rise := fd - config.deadband_Hz
      config.base_power_kW + -config.gain_kW_per_Hz * effective_df_rise
  else config.base_power_kW

/-- The output-limit clamp (`frequency_system.cpp` line 200):
`std::max(min_output_kW, std::min(max_output_kW, p))`. -/
def clampPower (config : FrequencyControlConfigComponent) (p : ℚ) : ℚ :=
  max config.min_output_kW (min config.max_output_kW p)

/-- The EV SOC guard (`frequency_system.cpp` lines 202-207): force 0 when
charging at or above the SOC ceiling, or when discharging at or below the SOC
floor; ESS units are unguarded. -/
def applySocGuard (config : FrequencyControlConfigComponent) (soc p : ℚ) : ℚ :=
  match config.type with
  | .EV_PILE =>
    let p1 := if p < 0 ∧ config.soc_max_threshold ≤ soc then 0 else p
    if 0 < p1 ∧ soc ≤ config.soc_min_threshold then 0 else p1
  | .ESS_UNIT => p

/-- One device's full update (`frequency_system.cpp` lines 154-208): SOC
integration first, then power recomputation, clamp, and SOC guard against the
updated SOC. -/
def updateDevice (lastFullTime dt fd : ℚ) (config : FrequencyControlConfigComponent)
    (st : PhysicalStateComponent) : PhysicalStateComponent :=
  let soc1 := socIntegrated config st lastFullTime dt
  { current_power_kW := applySocGuard config soc1 (clampPower config (newPowerPreClamp config soc1 fd))
    soc := soc1 }

/-- The per-instance state of `vppFrequencyResponseTask` (`frequency_system.cpp`
lines 112-114), all initialised to `-1.0`, `-1.0`, `0.0`. -/
structure VppState where
  last_processed_event_time_s : ℚ
  last_full_update_time_s : ℚ
  last_full_update_freq_dev_hz : ℚ
deriving DecidableEq

/-- Result of delivering one `FrequencyInfo` event to a VPP instance: the new
controller state, the managed devices' components (an entry is skipped when
either component is missing), and whether a full update ran. -/
structure VppStepResult where
  ctrl : VppState
  devices : List (Option FrequencyControlConfigComponent × Option PhysicalStateComponent)
  fullUpdate : Bool
deriving DecidableEq

/-- One iteration of the `vppFrequencyResponseTask` event loop
(`frequency_system.cpp` lines 120-213): monotonic dedupe on the event's
simulation time, then the frequency-change / elapsed-time gating
(thresholds 0.01 Hz and 1.0 s), then the per-device full update. -/
def vppStep (s : VppState) (devices : List (Option FrequencyControlConfigComponent × Option PhysicalStateComponent))
    (info : FrequencyInfo) : VppStepResult :=
  if info.current_sim_time_seconds ≤ s.last_processed_event_time_s then
    ⟨s, devices, false⟩
  else
    let dt := if s.last_full_update_time_s < 0 then 0
      else max 0 (info.current_sim_time_seconds - s.last_full_update_time_s)
    let full : Bool := if s.last_full_update_time_s < 0 then true
      else decide (1 / 100 < |info.freq_deviation_hz - s.last_full_update_freq_dev_hz|) ||
        decide ((1 : ℚ) ≤ dt)
    if full then
      ⟨⟨info.current_sim_time_seconds, info.current_sim_time_seconds, info.freq_deviation_hz⟩,
        devices.map (fun dev =>
          match dev with
          | (some config, some st) =>
            (some config, some (updateDevice s.last_full_update_time_s dt info.freq_deviation_hz config st))
          | other => other),
        true⟩
    else
      ⟨⟨info.current_sim_time_seconds, s.last_full_update_time_s, s.last_full_update_freq_dev_hz⟩,
        devices, false⟩

/-- C9: when the absolute frequency deviation is at most the deadband — in
particular when it is exactly equal to it — the recomputed power before the
clamp is the device's base power, because the response condition is the strict
inequality `|freq_dev| > deadband`. -/
theorem C9_deadband_strict_no_response (config : FrequencyControlConfigComponent)
    (soc fd : ℚ) (h : |fd| ≤ config.deadband_Hz) :
    newPowerPreClamp config soc fd = config.base_power_kW := by
  unfold newPowerPreClamp
  rw [if_neg (not_lt.2 h)]

/-- C9 witness: an ESS configuration with a 0.03 Hz deadband and a deviation of
exactly −0.03 Hz produces its base power of 0 before the clamp. -/
theorem C9_deadband_strict_no_response_witness :
    |(-3 : ℚ) / 100| ≤ (3 : ℚ) / 100 ∧
    newPowerPreClamp ⟨.ESS_UNIT, 0, 2000/3, 3/100, 1000, -1000, 1/20, 19/20⟩ (7/10) (-3/100) = 0 :=
  ⟨by rw [abs_le]; constructor <;> norm_num,
    C9_deadband_strict_no_response ⟨.ESS_UNIT, 0, 2000/3, 3/100, 1000, -1000, 1/20, 19/20⟩
      (7/10) (-3/100) (by rw [abs_le]; constructor <;> norm_num)⟩

/-- C7: delivering the same `FrequencyInfo` twice in succession to a VPP
controller that has not yet performed a full update causes exactly one full
update: the first delivery runs one, and the second — whose simulation time now
satisfies `sim_time_seconds ≤ last_processed_event_time_s` — is discarded by the
monotonic dedupe before any gating check or device mutation, leaving the
controller state and every device component unchanged. -/
theorem C7_vpp_dedupe_idempotent (s : VppState)
    (devices : List (Option FrequencyControlConfigComponent × Option PhysicalStateComponent))
    (info : FrequencyInfo)
    (h1 : s.last_processed_event_time_s < info.current_sim_time_seconds)
    (h2 : s.last_full_update_time_s < 0) :
    (vppStep s devices info).fullUpdate = true ∧
    vppStep (vppStep s devices info).ctrl (vppStep s devices info).devices info =
      ⟨(vppStep s devices info).ctrl, (vppStep s devices info).devices, false⟩ := by
  have hne : ¬(info.current_sim_time_seconds ≤ s.last_processed_event_time_s) := not_le.2 h1
  constructor
  · simp [vppStep, hne, h2]
  · have hfirst : (vppStep s devices info).ctrl.last_processed_event_time_s
        = info.current_sim_time_seconds := by
      simp [vppStep, hne, h2]
    rw [vppStep]
    rw [if_pos (le_of_eq hfirst.symm)]

/-- C7 witness: a freshly started controller (all per-instance state at −1, −1,
0) receiving the sample `(t = 1 s, Δf = 0)` twice: the first delivery performs
the full update, the second is discarded unchanged. -/
theorem C7_vpp_dedupe_idempotent_witness :
    (vppStep ⟨-1, -1, 0⟩ [] ⟨1, 0⟩).fullUpdate = true ∧
    vppStep (vppStep ⟨-1, -1, 0⟩ [] ⟨1, 0⟩).ctrl (vppStep ⟨-1, -1, 0⟩ [] ⟨1, 0⟩).devices ⟨1, 0⟩ =
      ⟨(vppStep ⟨-1, -1, 0⟩ [] ⟨1, 0⟩).ctrl, (vppStep ⟨-1, -1, 0⟩ [] ⟨1, 0⟩).devices, false⟩ :=
  C7_vpp_dedupe_idempotent ⟨-1, -1, 0⟩ [] ⟨1, 0⟩ (by norm_num) (by norm_num)

/-- An EV-pile configuration whose output limits exclude zero
(`min_output_kW = 1 > 0`): a legal constructor call, but not one `main` makes. -/
def guardCexConfig : FrequencyControlConfigComponent := ⟨.EV_PILE, 2, 0, 0, 5, 1, 1, 1⟩

/-- A device state for `guardCexConfig` at its SOC floor. -/
def guardCexState : PhysicalStateComponent := ⟨2, 0⟩

/-- C4 counterexample: the claim promises `current_power_kW` within
`[min_output_kW, max_output_kW]` after a full update for ANY device
configuration.  For `guardCexConfig` (limits `[1, 5]`, SOC thresholds 1) a full
update stores power 0 — the EV SOC guard forces 0 after the clamp — which lies
below `min_output_kW = 1`. -/
theorem C4_power_limits_counterexample :
    (vppStep ⟨-1, -1, 0⟩ [(some guardCexConfig, some guardCexState)] ⟨1, 0⟩).fullUpdate = true ∧
    (vppStep ⟨-1, -1, 0⟩ [(some guardCexConfig, some guardCexState)] ⟨1, 0⟩).devices
      = [(some guardCexConfig, some ⟨0, 0⟩)] ∧
    ¬(guardCexConfig.min_output_kW ≤ (0 : ℚ)) := by
  refine ⟨?_, ?_, by norm_num [guardCexConfig]⟩
  · simp [vppStep]
    norm_num
  · simp [vppStep, updateDevice, socIntegrated, newPowerPreClamp, clampPower, applySocGuard,
      capacityFor, guardCexConfig, guardCexState]
    norm_num

/-- C4 (amended): whenever the configured limits admit zero
(`min_output_kW ≤ 0 ≤ max_output_kW`, true of every configuration this program
creates), the power stored by a full device update — after the clamp and the
EV SOC guard — lies within `[min_output_kW, max_output_kW]`, for any SOC, any
frequency deviation and either device kind. -/
theorem C4_power_within_limits (lastFullTime dt fd : ℚ)
    (config : FrequencyControlConfigComponent) (st : PhysicalStateComponent)
    (hmin : config.min_output_kW ≤ 0) (hmax : 0 ≤ config.max_output_kW) :
    config.min_output_kW ≤ (updateDevice lastFullTime dt fd config st).current_power_kW ∧
    (updateDevice lastFullTime dt fd config st).current_power_kW ≤ config.max_output_kW := by
  have hmm : config.min_output_kW ≤ config.max_output_kW := le_trans hmin hmax
  set p := clampPower config (newPowerPreClamp config (socIntegrated config st lastFullTime dt) fd)
    with hp
  have hclamp : config.min_output_kW ≤ p ∧ p ≤ config.max_output_kW := by
    constructor
    · exact le_max_left _ _
    · exact max_le hmm (min_le_left _ _)
  show config.min_output_kW ≤ applySocGuard config _ p ∧
    applySocGuard config _ p ≤ config.max_output_kW
  unfold applySocGuard
  cases config.type with
  | ESS_UNIT => exact hclamp
  | EV_PILE =>
    simp only
    split_ifs <;> simp_all

/-- C4 witness: the reference EV-pile configuration (limits `[−5, 5]`) at a
−0.2 Hz deviation keeps the stored power within its limits. -/
theorem C4_power_within_limits_witness :
    FrequencyControlConfigComponent.min_output_kW ⟨.EV_PILE, -5, 4, 3/100, 5, -5, 1/10, 19/20⟩ ≤
      (updateDevice (-1) 0 (-1/5) ⟨.EV_PILE, -5, 4, 3/100, 5, -5, 1/10, 19/20⟩
        ⟨-5, 1/2⟩).current_power_kW ∧
    (updateDevice (-1) 0 (-1/5) ⟨.EV_PILE, -5, 4, 3/100, 5, -5, 1/10, 19/20⟩
        ⟨-5, 1/2⟩).current_power_kW ≤
      FrequencyControlConfigComponent.max_output_kW ⟨.EV_PILE, -5, 4, 3/100, 5, -5, 1/10, 19/20⟩ :=
  C4_power_within_limits (-1) 0 (-1/5) ⟨.EV_PILE, -5, 4, 3/100, 5, -5, 1/10, 19/20⟩
    ⟨-5, 1/2⟩ (by norm_num) (by norm_num)

end HECS
